import Mathlib

/-!
Shallow embedding of the DayPlanner schedule store (src/dayplanner.ts).

Modelling conventions:
- JavaScript object identity (the `===` / `!==` comparisons on Activity
  references) is modelled by giving every Activity a numeric `id` drawn
  from a fresh counter `nextId` held in the planner state; two references
  are the same object exactly when their ids agree.
- TypeScript `number` fields that the claims exercise with integer values
  (durations, start times) are modelled as `Int`; numeric literals arriving
  from JSON are modelled exactly as scaled decimals (mantissa times a power
  of ten) rather than as IEEE doubles, with `Number.isInteger` becoming a
  divisibility test.
- The mutable class state `{ activities, assignments }` becomes explicit
  state passing on a `DayPlanner` structure; thrown exceptions become
  `Except` results, and the observable post-state of a call that throws is
  the unchanged pre-state (the TypeScript code mutates the store only in
  the final apply loop, after all validation).
-/

namespace DayPlannerModel

/-- Activity record from dayplanner.ts, with an `id` field modelling
JavaScript reference identity of the created object. -/
structure Activity where
  id : Nat
  title : String
  duration : Int
deriving DecidableEq, Repr

/-- Assignment of an activity to a start slot, as in dayplanner.ts. -/
structure Assignment where
  activity : Activity
  startTime : Int
deriving DecidableEq, Repr

/-- The DayPlanner class state: its `activities` and `assignments` arrays,
plus the counter supplying fresh object identities. -/
structure DayPlanner where
  activities : List Activity
  assignments : List Assignment
  nextId : Nat
deriving DecidableEq, Repr

/-- A freshly constructed DayPlanner: both arrays empty. -/
def emptyPlanner : DayPlanner := ⟨[], [], 0⟩

/-- Model of addActivity: constructs the record and pushes it; the source
performs no validation of title or duration. Returns the updated store and
the created activity. -/
def addActivity (p : DayPlanner) (title : String) (duration : Int) :
    DayPlanner × Activity :=
  let a : Activity := ⟨p.nextId, title, duration⟩
  (⟨p.activities ++ [a], p.assignments, p.nextId + 1⟩, a)

/-- Model of removeActivity: filters out the activity's assignments, then
the activity itself (reference comparison modelled by id equality). -/
def removeActivity (p : DayPlanner) (a : Activity) : DayPlanner :=
  ⟨p.activities.filter (fun x => !(x.id == a.id)),
   p.assignments.filter (fun asg => !(asg.activity.id == a.id)),
   p.nextId⟩

/-- Model of unassignActivity: filters out any assignment whose activity is
the given reference. -/
def unassignActivity (p : DayPlanner) (a : Activity) : DayPlanner :=
  ⟨p.activities,
   p.assignments.filter (fun asg => !(asg.activity.id == a.id)),
   p.nextId⟩

/-- Model of assignActivity: first unassigns the activity, then pushes the
new assignment. No range or overlap check happens on this path. -/
def assignActivity (p : DayPlanner) (a : Activity) (t : Int) : DayPlanner :=
  let p' := unassignActivity p a
  ⟨p'.activities, p'.assignments ++ [⟨a, t⟩], p'.nextId⟩

/-- Model of the private isAssigned query. -/
def isAssigned (p : DayPlanner) (a : Activity) : Bool :=
  p.assignments.any (fun asg => asg.activity.id == a.id)

/-- The activities that are unassigned, in creation order, as snapshotted
at the start of assignActivities. -/
def unassignedActivities (p : DayPlanner) : List Activity :=
  p.activities.filter (fun a => ¬ isAssigned p a)

/-- C7 helper: the assignments of the store that reference an activity. -/
def assignmentsFor (p : DayPlanner) (a : Activity) : List Assignment :=
  p.assignments.filter (fun asg => asg.activity.id == a.id)

/-- Opening curly brace character, written via its code point. -/
def lbrace : Char := Char.ofNat 123

/-- Closing curly brace character, written via its code point. -/
def rbrace : Char := Char.ofNat 125

/-- A JSON numeric literal held exactly: the value is
mantissa times ten to the exp10. -/
structure JNum where
  mantissa : Int
  exp10 : Int
deriving DecidableEq, Repr

/-- The Number.isInteger test on an exact decimal. -/
def JNum.isInteger (n : JNum) : Bool :=
  if 0 ≤ n.exp10 then true
  else n.mantissa % ((10 : Int) ^ (-n.exp10).toNat) == 0

/-- The integer value of an exact decimal that passed the integer test. -/
def JNum.intValue (n : JNum) : Int :=
  if 0 ≤ n.exp10 then n.mantissa * (10 : Int) ^ n.exp10.toNat
  else n.mantissa / ((10 : Int) ^ (-n.exp10).toNat)

/-- JSON values as produced by JSON.parse; numbers are carried as exact
scaled decimals. -/
inductive Json where
  | null
  | bool (b : Bool)
  | num (q : JNum)
  | str (s : String)
  | arr (elems : List Json)
  | obj (fields : List (String × Json))
deriving Repr

/-- JSON whitespace accepted between tokens by JSON.parse: space, tab,
line feed and carriage return. -/
def isJsonWs (c : Char) : Bool :=
  match c with
  | ' ' => true
  | '\t' => true
  | '\n' => true
  | '\r' => true
  | _ => false

/-- Drops leading JSON whitespace. -/
def skipWs : List Char → List Char
  | [] => []
  | c :: cs => if isJsonWs c then skipWs cs else c :: cs

/-- Numeric value of a digit string. -/
def digitsToNat (ds : List Char) : Nat :=
  ds.foldl (fun n c => n * 10 + (c.toNat - 48)) 0

/-- Parses a JSON number literal: optional minus, integer part with no
leading zeros, optional fraction, optional exponent. -/
def parseNumber (cs : List Char) : Option (JNum × List Char) :=
  let signed : Bool × List Char :=
    match cs with
    | c :: rest => if c == '-' then (true, rest) else (false, cs)
    | [] => (false, [])
  let neg := signed.1
  let cs1 := signed.2
  let intSpan := cs1.span Char.isDigit
  let ds := intSpan.1
  let cs2 := intSpan.2
  if ds.isEmpty then none
  else if ds.length > 1 && ds.head? == some '0' then none
  else
    let fracSpan : Option (List Char × List Char) :=
      match cs2 with
      | c :: rest =>
        if c == '.' then
          let sp := rest.span Char.isDigit
          if sp.1.isEmpty then none else some sp
        else some ([], cs2)
      | [] => some ([], [])
    match fracSpan with
    | none => none
    | some (fds, cs3) =>
      let expSpan : Option (Int × List Char) :=
        match cs3 with
        | c :: rest =>
          if c == 'e' || c == 'E' then
            let esigned : Bool × List Char :=
              match rest with
              | d :: rest2 =>
                if d == '-' then (true, rest2)
                else if d == '+' then (false, rest2)
                else (false, rest)
              | [] => (false, [])
            let esp := esigned.2.span Char.isDigit
            if esp.1.isEmpty then none
            else
              let e : Int := Int.ofNat (digitsToNat esp.1)
              some (if esigned.1 then -e else e, esp.2)
          else some (0, cs3)
        | [] => some (0, [])
      match expSpan with
      | none => none
      | some (e, cs4) =>
        let mag : Int := Int.ofNat (digitsToNat (ds ++ fds))
        let mantissa : Int := if neg then -mag else mag
        some (⟨mantissa, e - fds.length⟩, cs4)

/-- Decodes a single-character JSON string escape (the simple escapes;
the u-escape is handled by the string scanner itself). -/
def escChar (c : Char) : Option Char :=
  match c with
  | '"' => some '"'
  | '\\' => some '\\'
  | '/' => some '/'
  | 'b' => some (Char.ofNat 8)
  | 'f' => some (Char.ofNat 12)
  | 'n' => some '\n'
  | 'r' => some '\r'
  | 't' => some '\t'
  | _ => none

/-- Value of a hexadecimal digit, if the character is one. -/
def hexVal (c : Char) : Option Nat :=
  if c.isDigit then some (c.toNat - 48)
  else if 'a' ≤ c && c ≤ 'f' then some (c.toNat - 87)
  else if 'A' ≤ c && c ≤ 'F' then some (c.toNat - 55)
  else none

/-- Parses the body of a JSON string literal after the opening quote,
returning the decoded characters and the remainder after the closing
quote. Unescaped control characters are rejected, as JSON.parse does. -/
def parseStringChars : List Char → Option (List Char × List Char)
  | [] => none
  | '\\' :: 'u' :: h1 :: h2 :: h3 :: h4 :: rest =>
    match hexVal h1, hexVal h2, hexVal h3, hexVal h4 with
    | some v1, some v2, some v3, some v4 =>
      (parseStringChars rest).map
        (fun pr => (Char.ofNat (((v1 * 16 + v2) * 16 + v3) * 16 + v4) :: pr.1, pr.2))
    | _, _, _, _ => none
  | '\\' :: e :: rest =>
    match escChar e with
    | some d => (parseStringChars rest).map (fun pr => (d :: pr.1, pr.2))
    | none => none
  | '"' :: rest => some ([], rest)
  | c :: rest =>
    if c.toNat < 32 then none
    else (parseStringChars rest).map (fun pr => (c :: pr.1, pr.2))

mutual

/-- Fuel-indexed parser for one JSON value, mirroring JSON.parse. -/
def parseVal : Nat → List Char → Option (Json × List Char)
  | 0, _ => none
  | fuel + 1, cs0 =>
    let cs := skipWs cs0
    match cs with
    | [] => none
    | c :: rest =>
      if c == '"' then
        (parseStringChars rest).map (fun pr => (Json.str (String.mk pr.1), pr.2))
      else if c == lbrace then
        let cs2 := skipWs rest
        match cs2 with
        | d :: rest2 =>
          if d == rbrace then some (Json.obj [], rest2)
          else (parseObjFields fuel cs2).map (fun pr => (Json.obj pr.1, pr.2))
        | [] => none
      else if c == '[' then
        let cs2 := skipWs rest
        match cs2 with
        | d :: rest2 =>
          if d == ']' then some (Json.arr [], rest2)
          else (parseArrElems fuel cs2).map (fun pr => (Json.arr pr.1, pr.2))
        | [] => none
      else if c == 't' then
        match cs with
        | 't' :: 'r' :: 'u' :: 'e' :: r => some (Json.bool true, r)
        | _ => none
      else if c == 'f' then
        match cs with
        | 'f' :: 'a' :: 'l' :: 's' :: 'e' :: r => some (Json.bool false, r)
        | _ => none
      else if c == 'n' then
        match cs with
        | 'n' :: 'u' :: 'l' :: 'l' :: r => some (Json.null, r)
        | _ => none
      else
        (parseNumber cs).map (fun pr => (Json.num pr.1, pr.2))

/-- Fuel-indexed parser for the elements of a non-empty JSON array,
positioned at the first element; consumes the closing bracket. -/
def parseArrElems : Nat → List Char → Option (List Json × List Char)
  | 0, _ => none
  | fuel + 1, cs =>
    match parseVal fuel cs with
    | none => none
    | some (v, r) =>
      match skipWs r with
      | ',' :: rest => (parseArrElems fuel rest).map (fun pr => (v :: pr.1, pr.2))
      | ']' :: rest => some ([v], rest)
      | _ => none

/-- Fuel-indexed parser for the fields of a non-empty JSON object,
positioned at the first key; consumes the closing brace. -/
def parseObjFields : Nat → List Char → Option (List (String × Json) × List Char)
  | 0, _ => none
  | fuel + 1, cs0 =>
    match skipWs cs0 with
    | [] => none
    | c :: rest =>
      if c == '"' then
        match parseStringChars rest with
        | none => none
        | some (key, r) =>
          match skipWs r with
          | ':' :: r2 =>
            match parseVal fuel r2 with
            | none => none
            | some (v, r3) =>
              match skipWs r3 with
              | ',' :: r4 =>
                (parseObjFields fuel r4).map
                  (fun pr => ((String.mk key, v) :: pr.1, pr.2))
              | d :: r4 =>
                if d == rbrace then some ([(String.mk key, v)], r4) else none
              | [] => none
          | _ => none
      else none

end

/-- Model of JSON.parse: parses one value surrounded only by whitespace.
The fuel bound exceeds the total number of parser calls any input of this
length can trigger, so it never cuts a successful parse short. -/
def jsonParse (s : String) : Option Json :=
  match parseVal (2 * s.length + 4) s.data with
  | some (v, rest) => if (skipWs rest).isEmpty then some v else none
  | none => none

/-- Index of the first character satisfying the predicate. -/
def findFirst (p : Char → Bool) : List Char → Option Nat
  | [] => none
  | c :: cs => if p c then some 0 else (findFirst p cs).map (· + 1)

/-- Model of the greedy regex match responseText.match over the pattern
"one opening brace, any characters, one closing brace": the span from the
first opening brace through the last closing brace, when the former
precedes the latter. -/
def extractJson (s : String) : Option String :=
  match findFirst (fun c => c == lbrace) s.data,
      findFirst (fun c => c == rbrace) s.data.reverse with
  | some i, some k =>
    if i < s.data.length - 1 - k then
      some (String.mk ((s.data.drop i).take (s.data.length - 1 - k - i + 1)))
    else none
  | _, _ => none

/-- Errors thrown by the batch path: the spec's ParseError (no payload or
unparseable payload) and ValidationError (aggregated issue list). -/
inductive BatchError where
  | parseError (msg : String)
  | validationError (issues : List String)
deriving Repr, DecidableEq

/-- Last-wins field lookup, as JSON.parse resolves duplicate object keys. -/
def lookupLast (fields : List (String × Json)) (key : String) : Option Json :=
  fields.foldl (fun acc f => if f.1 == key then some f.2 else acc) none

/-- Property access on a parsed JSON value: only objects yield fields
(array values destructure to no named fields). -/
def jsGetField (raw : Json) (key : String) : Option Json :=
  match raw with
  | Json.obj fields => lookupLast fields key
  | _ => none

/-- The response.assignments check: the parsed value must be an object
whose assignments field is an array (any other shape throws). -/
def getAssignmentsField (v : Json) : Option (List Json) :=
  match v with
  | Json.obj fields =>
    match lookupLast fields "assignments" with
    | some (Json.arr xs) => some xs
    | _ => none
  | _ => none

/-- The parse portion of parseAndApplyAssignments: regex extraction,
JSON.parse, and the assignments-array shape check; each failure aborts the
call, modelled as the spec's ParseError. -/
def parsePhase (text : String) : Except BatchError (List Json) :=
  match extractJson text with
  | none => Except.error (BatchError.parseError "No JSON found in response")
  | some ex =>
    match jsonParse ex with
    | none => Except.error (BatchError.parseError "JSON parse failed")
    | some v =>
      match getAssignmentsField v with
      | none => Except.error (BatchError.parseError "Invalid response format")
      | some raws => Except.ok raws

/-- Model of formatTimeSlot. -/
def formatTimeSlot (timeSlot : Int) : String :=
  let hours := timeSlot.fdiv 2
  let minutes := timeSlot.tmod 2 * 30
  let period := if hours ≥ 12 then "PM" else "AM"
  let displayHours :=
    if hours == 0 then (12 : Int) else if hours > 12 then hours - 12 else hours
  let mstr := toString minutes
  let mpad := if mstr.length == 1 then "0" ++ mstr else mstr
  toString displayHours ++ ":" ++ mpad ++ " " ++ period

/-- State threaded through the validation loop of
parseAndApplyAssignments: the per-title FIFO queues, the issue list, the
validated proposals, and the working occupancy view. -/
structure LoopState where
  queues : String → List Activity
  issues : List String
  validated : List (Activity × Int)
  occupied : Int → Option Activity

/-- Per-title FIFO queues of the given activities, in list order. -/
def buildQueues (unassigned : List Activity) : String → List Activity :=
  unassigned.foldl
    (fun m a => fun t => if t == a.title then m t ++ [a] else m t)
    (fun _ => [])

/-- Marks the n slots starting at st as occupied by the activity,
overwriting previous occupants, as Map.set does. -/
def markRange (occ : Int → Option Activity) (a : Activity) (st : Int) (n : Nat) :
    Int → Option Activity :=
  fun s => if st ≤ s ∧ s < st + (n : Int) then some a else occ s

/-- Seeds the working occupancy view from the store's existing
assignments. -/
def seedOccupied (assignments : List Assignment) : Int → Option Activity :=
  assignments.foldl
    (fun occ asg => markRange occ asg.activity asg.startTime asg.activity.duration.toNat)
    (fun _ => none)

/-- First occupied slot among the n slots starting at st, scanned in
offset order with early exit, as the conflict loop does. -/
def findConflict (occ : Int → Option Activity) (st : Int) : Nat → Option (Int × Activity)
  | 0 => none
  | k + 1 =>
    match occ st with
    | some b => some (st, b)
    | none => findConflict occ (st + 1) k

/-- Characters removed by the JavaScript String.trim call on titles. -/
def trimList (cs : List Char) : List Char :=
  ((cs.dropWhile Char.isWhitespace).reverse.dropWhile Char.isWhitespace).reverse

/-- The title check title.trim().length === 0: true when the title is
nothing but whitespace. -/
def trimEmpty (s : String) : Bool :=
  (trimList s.data).isEmpty

/-- Issue text for a non-object entry. -/
def msgNotObject : String := "Encountered an assignment entry that is not an object."

/-- Issue text for a missing or invalid title. -/
def msgBadTitle : String := "Assignment is missing a valid activity title."

/-- Issue text for an exhausted title queue. -/
def msgNoOccurrence (title : String) : String :=
  "No available occurrences of activity \"" ++ title ++ "\" to assign."

/-- Issue text for a non-integer start time. -/
def msgNonInteger (title : String) : String :=
  "Activity \"" ++ title ++ "\" has a non-integer start time."

/-- Issue text for an out-of-range start time. -/
def msgOutOfRange (title : String) (startTime : Int) : String :=
  "Activity \"" ++ title ++ "\" has an out-of-range start time (" ++
    toString startTime ++ ")."

/-- Issue text for a proposal extending past the end of the day. -/
def msgPastEnd (title : String) : String :=
  "Activity \"" ++ title ++ "\" would extend past the end of the day."

/-- Issue text for a slot conflict. -/
def msgConflict (slot : Int) (occupantTitle : String) (title : String) : String :=
  "Time slot " ++ formatTimeSlot slot ++ " is already taken by \"" ++
    occupantTitle ++ "\" and conflicts with \"" ++ title ++ "\"."

/-- Validation of one raw entry that passed the typeof-object test (a JSON
object or array): title check, queue pop, start-time checks, conflict
check, then either queue restore or slot marking. -/
def processObjLike (s : LoopState) (raw : Json) : LoopState :=
  match jsGetField raw "title" with
  | some (Json.str title) =>
    if trimEmpty title then
      ⟨s.queues, s.issues ++ [msgBadTitle], s.validated, s.occupied⟩
    else
      match s.queues title with
      | [] =>
        ⟨s.queues, s.issues ++ [msgNoOccurrence title], s.validated, s.occupied⟩
      | activity :: poolRest =>
        let queues2 : String → List Activity :=
          fun t => if t == title then poolRest else s.queues t
        match jsGetField raw "startTime" with
        | some (Json.num q) =>
          if q.isInteger = false then
            ⟨queues2, s.issues ++ [msgNonInteger title], s.validated, s.occupied⟩
          else
            let startTime := q.intValue
            if startTime < 0 ∨ startTime > 47 then
              ⟨queues2, s.issues ++ [msgOutOfRange title startTime],
                s.validated, s.occupied⟩
            else if startTime + activity.duration > 48 then
              ⟨queues2, s.issues ++ [msgPastEnd title], s.validated, s.occupied⟩
            else
              match findConflict s.occupied startTime activity.duration.toNat with
              | some (slot, occupant) =>
                ⟨fun t => if t == title then activity :: queues2 t else queues2 t,
                  s.issues ++ [msgConflict slot occupant.title title],
                  s.validated, s.occupied⟩
              | none =>
                ⟨queues2, s.issues,
                  s.validated ++ [(activity, startTime)],
                  markRange s.occupied activity startTime activity.duration.toNat⟩
        | _ =>
          ⟨queues2, s.issues ++ [msgNonInteger title], s.validated, s.occupied⟩
  | _ =>
    ⟨s.queues, s.issues ++ [msgBadTitle], s.validated, s.occupied⟩

/-- Validation of one raw entry: non-objects are recorded as issues,
objects and arrays proceed to the field checks. -/
def processRaw (s : LoopState) (raw : Json) : LoopState :=
  match raw with
  | Json.null => ⟨s.queues, s.issues ++ [msgNotObject], s.validated, s.occupied⟩
  | Json.bool _ => ⟨s.queues, s.issues ++ [msgNotObject], s.validated, s.occupied⟩
  | Json.num _ => ⟨s.queues, s.issues ++ [msgNotObject], s.validated, s.occupied⟩
  | Json.str _ => ⟨s.queues, s.issues ++ [msgNotObject], s.validated, s.occupied⟩
  | Json.arr elems => processObjLike s (Json.arr elems)
  | Json.obj fields => processObjLike s (Json.obj fields)

/-- The whole validation loop over the raw entries. -/
def validateRaws (p : DayPlanner) (unassigned : List Activity) (raws : List Json) :
    LoopState :=
  raws.foldl processRaw
    ⟨buildQueues unassigned, [], [], seedOccupied p.assignments⟩

/-- The apply loop: each validated pair is committed through
assignActivity. -/
def applyAll (p : DayPlanner) (validated : List (Activity × Int)) : DayPlanner :=
  validated.foldl (fun q pr => assignActivity q pr.1 pr.2) p

/-- Model of parseAndApplyAssignments: parse phase, validation loop, then
either a thrown ValidationError carrying the aggregated issues or the
apply loop. -/
def parseAndApplyAssignments (p : DayPlanner) (unassigned : List Activity)
    (text : String) : Except BatchError DayPlanner :=
  match parsePhase text with
  | Except.error e => Except.error e
  | Except.ok raws =>
    let st := validateRaws p unassigned raws
    if st.issues = [] then Except.ok (applyAll p st.validated)
    else Except.error (BatchError.validationError st.issues)

/-- Observable post-state of parseAndApplyAssignments: a thrown error
leaves the mutable store exactly as it was (the source mutates it only in
the apply loop). -/
def runParseAndApply (p : DayPlanner) (unassigned : List Activity)
    (text : String) : DayPlanner :=
  match parseAndApplyAssignments p unassigned text with
  | Except.ok p2 => p2
  | Except.error _ => p

/-- Model of assignActivities given the planner text the external call
returned: snapshots the unassigned activities, returns early when none,
otherwise parses and applies. -/
def assignActivities (p : DayPlanner) (text : String) : Except BatchError DayPlanner :=
  let unassigned := unassignedActivities p
  if unassigned.isEmpty then Except.ok p
  else parseAndApplyAssignments p unassigned text

/-- Observable post-state of assignActivities. -/
def runBatch (p : DayPlanner) (text : String) : DayPlanner :=
  match assignActivities p text with
  | Except.ok p2 => p2
  | Except.error _ => p

/-- Placement loop of getSchedule for one assignment: walks the duration's
offsets, pushes the activity into every slot strictly below 48, and fails
(as the JavaScript push onto a missing key throws) when the slot is
negative. -/
def placeSlots (a : Activity) : List (List Activity) → Int → Nat →
    Option (List (List Activity))
  | sched, _, 0 => some sched
  | sched, slot, k + 1 =>
    if slot < 48 then
      if 0 ≤ slot then
        placeSlots a (sched.set slot.toNat (sched.getD slot.toNat [] ++ [a]))
          (slot + 1) k
      else none
    else placeSlots a sched (slot + 1) k

/-- Model of getSchedule: 48 initially empty slot lists, then every
assignment is expanded across its duration. -/
def getSchedule (p : DayPlanner) : Option (List (List Activity)) :=
  p.assignments.foldlM
    (fun sched asg =>
      placeSlots asg.activity sched asg.startTime asg.activity.duration.toNat)
    (List.replicate 48 [])

/-- A proposal entry exactly as the planner is instructed to produce it:
an object with a title string and an integer startTime. -/
def mkProposal (title : String) (t : Int) : Json :=
  Json.obj [("title", Json.str title), ("startTime", Json.num ⟨t, 0⟩)]

/-- Fixture loop state used to exercise the rejection branches: one queued
Study activity of duration 2 and an existing Lunch assignment at slot 5. -/
def sC2 : LoopState :=
  ⟨buildQueues [⟨0, "Study", 2⟩], [], [], seedOccupied [⟨⟨9, "Lunch", 1⟩, 5⟩]⟩

/-- The single queued activity of the fixture state. -/
def aC2 : Activity := ⟨0, "Study", 2⟩

/-- States reachable from a fresh planner through the public operations;
the batch operation takes the text the external planner returned. -/
inductive Reachable : DayPlanner → Prop where
  | init : Reachable emptyPlanner
  | add (p : DayPlanner) (title : String) (dur : Int) :
      Reachable p → Reachable (addActivity p title dur).1
  | remove (p : DayPlanner) (a : Activity) :
      Reachable p → Reachable (removeActivity p a)
  | unassign (p : DayPlanner) (a : Activity) :
      Reachable p → Reachable (unassignActivity p a)
  | assign (p : DayPlanner) (a : Activity) (t : Int) :
      Reachable p → Reachable (assignActivity p a t)
  | batch (p : DayPlanner) (text : String) :
      Reachable p → Reachable (runBatch p text)

/-- States reachable when every direct assignActivity call keeps the
assignment within the day (the discipline the unchecked direct path
requires of its caller). -/
inductive ConstrainedReachable : DayPlanner → Prop where
  | init : ConstrainedReachable emptyPlanner
  | add (p : DayPlanner) (title : String) (dur : Int) :
      ConstrainedReachable p → ConstrainedReachable (addActivity p title dur).1
  | remove (p : DayPlanner) (a : Activity) :
      ConstrainedReachable p → ConstrainedReachable (removeActivity p a)
  | unassign (p : DayPlanner) (a : Activity) :
      ConstrainedReachable p → ConstrainedReachable (unassignActivity p a)
  | assign (p : DayPlanner) (a : Activity) (t : Int) :
      ConstrainedReachable p → t + a.duration ≤ 48 →
      ConstrainedReachable (assignActivity p a t)
  | batch (p : DayPlanner) (text : String) :
      ConstrainedReachable p → ConstrainedReachable (runBatch p text)

theorem filter_ne_append_singleton (l : List Assignment) (a : Activity) (t : Int) :
    (l.filter (fun asg => !(asg.activity.id == a.id)) ++
        ([⟨a, t⟩] : List Assignment)).filter
      (fun asg => asg.activity.id == a.id) = [⟨a, t⟩] := by
  rw [List.filter_append]
  have h1 : (l.filter (fun asg => !(asg.activity.id == a.id))).filter
      (fun asg => asg.activity.id == a.id) = [] := by
    rw [List.filter_filter]
    apply List.filter_eq_nil_iff.mpr
    intro asg _
    by_cases h : asg.activity.id = a.id <;> simp [h]
  rw [h1]
  simp

/-- C7: assigning the same activity to the same slot twice in a row leaves
exactly one assignment for that activity, at that slot. -/
theorem assignActivity_idempotent_single (p : DayPlanner) (a : Activity) (t : Int) :
    assignmentsFor (assignActivity (assignActivity p a t) a t) a = [⟨a, t⟩] := by
  simp only [assignActivity, unassignActivity, assignmentsFor]
  exact filter_ne_append_singleton _ a t

/-- C8: unassignActivity removes the activity's assignment whenever one
exists — unconditionally, after the call no assignment references the
activity, while every assignment of a different activity survives and the
activities array is untouched — and when the activity has no current
assignment it is a tolerant no-op: it does not fail and leaves the whole
store exactly unchanged. -/
theorem unassignActivity_removes_and_tolerant (p : DayPlanner) (a : Activity) :
    (unassignActivity p a).assignments.filter
        (fun asg => asg.activity.id == a.id) = [] ∧
      (unassignActivity p a).assignments
        = p.assignments.filter (fun asg => !(asg.activity.id == a.id)) ∧
      (unassignActivity p a).activities = p.activities ∧
      (isAssigned p a = false → unassignActivity p a = p) := by
  refine ⟨?_, rfl, rfl, ?_⟩
  · simp only [unassignActivity]
    rw [List.filter_filter]
    apply List.filter_eq_nil_iff.mpr
    intro asg _
    by_cases hc : asg.activity.id = a.id <;> simp [hc]
  · intro h
    have hall : ∀ asg ∈ p.assignments, asg.activity.id ≠ a.id := by
      intro asg hmem
      simp only [isAssigned, List.any_eq_false] at h
      have := h asg hmem
      simpa using this
    have : p.assignments.filter (fun asg => !(asg.activity.id == a.id)) =
        p.assignments := by
      apply List.filter_eq_self.mpr
      intro asg hmem
      simpa using hall asg hmem
    simp [unassignActivity, this]

/-- C8 witness: both halves at concrete stores — removal at a store where
Breakfast IS assigned (slot 14), and the exact no-op at a store where it
has no assignment. -/
theorem unassignActivity_removes_and_tolerant_witness :
    ((unassignActivity ⟨[⟨0, "Breakfast", 1⟩], [⟨⟨0, "Breakfast", 1⟩, 14⟩], 1⟩
          ⟨0, "Breakfast", 1⟩).assignments.filter
        (fun asg => asg.activity.id == (⟨0, "Breakfast", 1⟩ : Activity).id)
          = [] ∧
      (unassignActivity ⟨[⟨0, "Breakfast", 1⟩], [⟨⟨0, "Breakfast", 1⟩, 14⟩], 1⟩
          ⟨0, "Breakfast", 1⟩).assignments = [] ∧
      (unassignActivity ⟨[⟨0, "Breakfast", 1⟩], [⟨⟨0, "Breakfast", 1⟩, 14⟩], 1⟩
          ⟨0, "Breakfast", 1⟩).activities = [⟨0, "Breakfast", 1⟩]) ∧
      (isAssigned ⟨[⟨0, "Breakfast", 1⟩], [], 1⟩ ⟨0, "Breakfast", 1⟩ = false ∧
        unassignActivity ⟨[⟨0, "Breakfast", 1⟩], [], 1⟩ ⟨0, "Breakfast", 1⟩
          = ⟨[⟨0, "Breakfast", 1⟩], [], 1⟩) :=
  ⟨⟨(unassignActivity_removes_and_tolerant
        ⟨[⟨0, "Breakfast", 1⟩], [⟨⟨0, "Breakfast", 1⟩, 14⟩], 1⟩
        ⟨0, "Breakfast", 1⟩).1,
      by decide, by decide⟩,
    ⟨by decide,
      (unassignActivity_removes_and_tolerant ⟨[⟨0, "Breakfast", 1⟩], [], 1⟩
        ⟨0, "Breakfast", 1⟩).2.2.2 (by decide)⟩⟩

/-- C9: removing an activity right after assigning it leaves no assignment
referencing it — removal cascades to the assignment. -/
theorem removeActivity_after_assign (p : DayPlanner) (a : Activity) (t : Int) :
    (removeActivity (assignActivity p a t) a).assignments.filter
      (fun asg => asg.activity.id == a.id) = [] := by
  simp only [removeActivity, assignActivity, unassignActivity]
  rw [List.filter_filter]
  apply List.filter_eq_nil_iff.mpr
  intro asg _
  by_cases hc : asg.activity.id = a.id <;> simp [hc]

/-- C3 counterexample: addActivity performs no validation at all. Called
with the empty title and the out-of-range duration 100 it does not fail
with an InputError (the model of the source has no failure path); it
creates and returns the activity, which enters the store. -/
theorem addActivity_no_inputError :
    (addActivity emptyPlanner "" 100).1.activities = [⟨0, "", 100⟩] ∧
      (addActivity emptyPlanner "" 100).2 = ⟨0, "", 100⟩ := by
  decide

/-- C3 amended: addActivity never fails: for every title and duration,
valid or not, it appends and returns a fresh activity distinct from all
existing ones (given that existing ids are below the id counter, which
holds for every store built by the operations). -/
theorem addActivity_always_creates_fresh (p : DayPlanner) (title : String)
    (dur : Int) (h : ∀ b ∈ p.activities, b.id < p.nextId) :
    (addActivity p title dur).1.activities
        = p.activities ++ [(addActivity p title dur).2] ∧
      (addActivity p title dur).2 ∉ p.activities := by
  refine ⟨rfl, fun hmem => ?_⟩
  have hlt := h _ hmem
  simp [addActivity] at hlt

/-- C3 amended witness at a store already holding one activity. -/
theorem addActivity_always_creates_fresh_witness :
    (∀ b ∈ ((⟨[⟨0, "Gym", 2⟩], [], 1⟩ : DayPlanner)).activities,
        b.id < (⟨[⟨0, "Gym", 2⟩], [], 1⟩ : DayPlanner).nextId) ∧
      ((addActivity ⟨[⟨0, "Gym", 2⟩], [], 1⟩ "Gym" 2).1.activities
          = (⟨[⟨0, "Gym", 2⟩], [], 1⟩ : DayPlanner).activities
            ++ [(addActivity ⟨[⟨0, "Gym", 2⟩], [], 1⟩ "Gym" 2).2] ∧
        (addActivity ⟨[⟨0, "Gym", 2⟩], [], 1⟩ "Gym" 2).2
          ∉ (⟨[⟨0, "Gym", 2⟩], [], 1⟩ : DayPlanner).activities) :=
  ⟨by decide, addActivity_always_creates_fresh _ "Gym" 2 (by decide)⟩

/-- C1: whenever the validation loop records at least one issue, the batch
call fails with a ValidationError carrying the complete aggregated issue
list, and the observable store after the call is exactly the store before
it — no proposal from the batch is applied. -/
theorem validation_issues_abort_batch (p : DayPlanner) (text : String)
    (raws : List Json) (hparse : parsePhase text = Except.ok raws)
    (hiss : (validateRaws p (unassignedActivities p) raws).issues ≠ []) :
    parseAndApplyAssignments p (unassignedActivities p) text =
        Except.error (BatchError.validationError
          (validateRaws p (unassignedActivities p) raws).issues) ∧
      runParseAndApply p (unassignedActivities p) text = p := by
  have h1 : parseAndApplyAssignments p (unassignedActivities p) text =
      Except.error (BatchError.validationError
        (validateRaws p (unassignedActivities p) raws).issues) := by
    unfold parseAndApplyAssignments
    rw [hparse]
    simp [hiss]
  refine ⟨h1, ?_⟩
  unfold runParseAndApply
  rw [h1]

/-- C1 witness: one Gym activity; the planner text proposes Gym at slot 50
(out of range, consuming the only Gym) and Gym at slot 7 (queue now
empty), so the call aborts with both issues and the store is unchanged. -/
theorem validation_issues_abort_batch_witness :
    (parsePhase "\x7b\"assignments\": [\x7b\"title\": \"Gym\", \"startTime\": 50\x7d, \x7b\"title\": \"Gym\", \"startTime\": 7\x7d]\x7d"
        = Except.ok [mkProposal "Gym" 50, mkProposal "Gym" 7]) ∧
      (validateRaws ⟨[⟨0, "Gym", 2⟩], [], 1⟩
          (unassignedActivities ⟨[⟨0, "Gym", 2⟩], [], 1⟩)
          [mkProposal "Gym" 50, mkProposal "Gym" 7]).issues ≠ [] ∧
      (parseAndApplyAssignments ⟨[⟨0, "Gym", 2⟩], [], 1⟩
          (unassignedActivities ⟨[⟨0, "Gym", 2⟩], [], 1⟩)
          "\x7b\"assignments\": [\x7b\"title\": \"Gym\", \"startTime\": 50\x7d, \x7b\"title\": \"Gym\", \"startTime\": 7\x7d]\x7d" =
          Except.error (BatchError.validationError
            (validateRaws ⟨[⟨0, "Gym", 2⟩], [], 1⟩
              (unassignedActivities ⟨[⟨0, "Gym", 2⟩], [], 1⟩)
              [mkProposal "Gym" 50, mkProposal "Gym" 7]).issues) ∧
        runParseAndApply ⟨[⟨0, "Gym", 2⟩], [], 1⟩
          (unassignedActivities ⟨[⟨0, "Gym", 2⟩], [], 1⟩)
          "\x7b\"assignments\": [\x7b\"title\": \"Gym\", \"startTime\": 50\x7d, \x7b\"title\": \"Gym\", \"startTime\": 7\x7d]\x7d"
          = ⟨[⟨0, "Gym", 2⟩], [], 1⟩) :=
  ⟨by rfl, by decide,
    validation_issues_abort_batch ⟨[⟨0, "Gym", 2⟩], [], 1⟩ _ _ (by rfl) (by decide)⟩

/-- C2 counterexample: one unassigned Study activity; a first proposal with
out-of-range startTime 99 pops it and does NOT return it to its queue,
so the queue is left empty and a second, valid proposal for the same title
is rejected with a no-available-occurrences issue — the popped activity did
not remain available to later proposals. -/
theorem range_rejection_consumes_counterexample :
    (validateRaws ⟨[⟨0, "Study", 1⟩], [], 1⟩ [⟨0, "Study", 1⟩]
          [mkProposal "Study" 99]).queues "Study" = [] ∧
      (validateRaws ⟨[⟨0, "Study", 1⟩], [], 1⟩ [⟨0, "Study", 1⟩]
          [mkProposal "Study" 99, mkProposal "Study" 5]).issues =
        [msgOutOfRange "Study" 99, msgNoOccurrence "Study"] := by
  decide

/-- C2 amended: a proposal rejected after its activity was popped because
startTime is not an integer, is outside [0,47], or makes the activity
extend past the end of the day leaves the activity consumed — the title's
queue keeps only the remaining occurrences; only a slot-conflict rejection
returns the popped activity to the front of its queue, restoring the
queues exactly. -/
theorem rejection_queue_effects (s : LoopState) (T : String) (q : JNum)
    (a : Activity) (rest : List Activity)
    (htrim : trimEmpty T = false)
    (hpool : s.queues T = a :: rest) :
    (q.isInteger = false →
        (processObjLike s (Json.obj [("title", Json.str T),
            ("startTime", Json.num q)])).queues T = rest ∧
        (processObjLike s (Json.obj [("title", Json.str T),
            ("startTime", Json.num q)])).issues = s.issues ++ [msgNonInteger T]) ∧
      (q.isInteger = true → (q.intValue < 0 ∨ q.intValue > 47) →
        (processObjLike s (Json.obj [("title", Json.str T),
            ("startTime", Json.num q)])).queues T = rest ∧
        (processObjLike s (Json.obj [("title", Json.str T),
            ("startTime", Json.num q)])).issues =
          s.issues ++ [msgOutOfRange T q.intValue]) ∧
      (q.isInteger = true → ¬(q.intValue < 0 ∨ q.intValue > 47) →
        q.intValue + a.duration > 48 →
        (processObjLike s (Json.obj [("title", Json.str T),
            ("startTime", Json.num q)])).queues T = rest ∧
        (processObjLike s (Json.obj [("title", Json.str T),
            ("startTime", Json.num q)])).issues = s.issues ++ [msgPastEnd T]) ∧
      (∀ slot b, q.isInteger = true → ¬(q.intValue < 0 ∨ q.intValue > 47) →
        ¬(q.intValue + a.duration > 48) →
        findConflict s.occupied q.intValue a.duration.toNat = some (slot, b) →
        (processObjLike s (Json.obj [("title", Json.str T),
            ("startTime", Json.num q)])).queues = s.queues ∧
        (processObjLike s (Json.obj [("title", Json.str T),
            ("startTime", Json.num q)])).issues =
          s.issues ++ [msgConflict slot b.title T]) := by
  refine ⟨?_, ?_, ?_, ?_⟩
  · intro hni
    simp [processObjLike, jsGetField, lookupLast, htrim, hpool, hni]
  · intro hi hr
    simp [processObjLike, jsGetField, lookupLast, htrim, hpool, hi, if_pos hr]
  · intro hi hr hend
    simp [processObjLike, jsGetField, lookupLast, htrim, hpool, hi, hr, hend]
  · intro slot b hi hr hend hconf
    simp [processObjLike, jsGetField, lookupLast, htrim, hpool, hi, hr, hend,
      hconf]
    funext t
    by_cases ht : t = T
    · subst ht; simp [hpool]
    · simp [ht]

/-- C2 amended witness: one Study activity of duration 2 and one existing
Lunch assignment occupying slot 5; the four rejection branches are
instantiated with startTimes 0.1, 99, 47 and 5. -/
theorem rejection_queue_effects_witness :
    (trimEmpty "Study" = false ∧ sC2.queues "Study" = aC2 :: []) ∧
    (processObjLike sC2 (Json.obj [("title", Json.str "Study"),
        ("startTime", Json.num ⟨1, -1⟩)])).queues "Study" = [] ∧
    (processObjLike sC2 (Json.obj [("title", Json.str "Study"),
        ("startTime", Json.num ⟨99, 0⟩)])).issues
      = [] ++ [msgOutOfRange "Study" 99] ∧
    (processObjLike sC2 (Json.obj [("title", Json.str "Study"),
        ("startTime", Json.num ⟨47, 0⟩)])).issues
      = [] ++ [msgPastEnd "Study"] ∧
    (processObjLike sC2 (Json.obj [("title", Json.str "Study"),
        ("startTime", Json.num ⟨5, 0⟩)])).queues = sC2.queues :=
  ⟨⟨by decide, by decide⟩,
    ((rejection_queue_effects sC2 "Study" ⟨1, -1⟩ aC2 [] (by decide)
      (by decide)).1 (by decide)).1,
    ((rejection_queue_effects sC2 "Study" ⟨99, 0⟩ aC2 [] (by decide)
      (by decide)).2.1 (by decide) (by decide)).2,
    ((rejection_queue_effects sC2 "Study" ⟨47, 0⟩ aC2 [] (by decide)
      (by decide)).2.2.1 (by decide) (by decide) (by decide)).2,
    ((rejection_queue_effects sC2 "Study" ⟨5, 0⟩ aC2 [] (by decide)
      (by decide)).2.2.2 5 ⟨9, "Lunch", 1⟩ (by decide) (by decide) (by decide)
      (by decide)).1⟩

theorem processObjLike_validated_sub (s : LoopState) (raw : Json) :
    (processObjLike s raw).validated = s.validated ∨
      ∃ a t, (processObjLike s raw).validated = s.validated ++ [(a, t)] ∧
        0 ≤ t ∧ t ≤ 47 ∧ t + a.duration ≤ 48 := by
  unfold processObjLike
  split
  · split
    · left; rfl
    · split
      · left; rfl
      · split
        · split
          · left; rfl
          · dsimp only
            split
            · left; rfl
            · split
              · left; rfl
              · split
                · left; rfl
                · right
                  refine ⟨_, _, rfl, by omega, by omega, by omega⟩
        · left; rfl
  · left; rfl

theorem processRaw_validated_sub (s : LoopState) (raw : Json) :
    (processRaw s raw).validated = s.validated ∨
      ∃ a t, (processRaw s raw).validated = s.validated ++ [(a, t)] ∧
        0 ≤ t ∧ t ≤ 47 ∧ t + a.duration ≤ 48 := by
  cases raw with
  | arr elems => exact processObjLike_validated_sub s (Json.arr elems)
  | obj fields => exact processObjLike_validated_sub s (Json.obj fields)
  | null => left; rfl
  | bool b => left; rfl
  | num q => left; rfl
  | str t => left; rfl

theorem foldl_processRaw_validated_bound (raws : List Json) :
    ∀ s : LoopState, (∀ pr ∈ s.validated, pr.2 + pr.1.duration ≤ 48) →
      ∀ pr ∈ (raws.foldl processRaw s).validated, pr.2 + pr.1.duration ≤ 48 := by
  induction raws with
  | nil => intro s hs; simpa using hs
  | cons r rs ih =>
    intro s hs
    simp only [List.foldl_cons]
    apply ih
    rcases processRaw_validated_sub s r with h | ⟨a, t, h, _, _, hb⟩
    · rw [h]; exact hs
    · rw [h]
      intro pr hpr
      rcases List.mem_append.mp hpr with hin | hnew
      · exact hs pr hin
      · rcases List.mem_singleton.mp hnew with rfl
        simpa using hb

theorem validateRaws_validated_bound (p : DayPlanner) (un : List Activity)
    (raws : List Json) :
    ∀ pr ∈ (validateRaws p un raws).validated, pr.2 + pr.1.duration ≤ 48 := by
  unfold validateRaws
  exact foldl_processRaw_validated_bound raws _ (by intro pr h; simp at h)

theorem assignActivity_assignments_bound (p : DayPlanner) (a : Activity) (t : Int)
    (hp : ∀ asg ∈ p.assignments, asg.startTime + asg.activity.duration ≤ 48)
    (ht : t + a.duration ≤ 48) :
    ∀ asg ∈ (assignActivity p a t).assignments,
      asg.startTime + asg.activity.duration ≤ 48 := by
  intro asg hmem
  simp only [assignActivity, unassignActivity] at hmem
  rcases List.mem_append.mp hmem with hf | hnew
  · exact hp asg (List.mem_of_mem_filter hf)
  · rcases List.mem_singleton.mp hnew with rfl
    simpa using ht

theorem applyAll_bound (l : List (Activity × Int)) :
    ∀ p : DayPlanner,
      (∀ asg ∈ p.assignments, asg.startTime + asg.activity.duration ≤ 48) →
      (∀ pr ∈ l, pr.2 + pr.1.duration ≤ 48) →
      ∀ asg ∈ (applyAll p l).assignments,
        asg.startTime + asg.activity.duration ≤ 48 := by
  induction l with
  | nil => intro p hp _; exact hp
  | cons pr rest ih =>
    intro p hp hl
    simp only [applyAll, List.foldl_cons]
    apply ih
    · exact assignActivity_assignments_bound p pr.1 pr.2 hp
        (hl pr (List.mem_cons_self pr rest))
    · intro x hx; exact hl x (List.mem_cons_of_mem pr hx)

theorem runParseAndApply_bound (p : DayPlanner) (un : List Activity)
    (text : String)
    (hp : ∀ asg ∈ p.assignments, asg.startTime + asg.activity.duration ≤ 48) :
    ∀ asg ∈ (runParseAndApply p un text).assignments,
      asg.startTime + asg.activity.duration ≤ 48 := by
  unfold runParseAndApply parseAndApplyAssignments
  cases hph : parsePhase text with
  | error e => simpa using hp
  | ok raws =>
    by_cases hiss : (validateRaws p un raws).issues = []
    · simp only [hiss, if_pos, if_true]
      exact applyAll_bound _ p hp (validateRaws_validated_bound p un raws)
    · simp only [hiss, if_neg, if_false]
      simpa [hiss] using hp

theorem runBatch_bound (p : DayPlanner) (text : String)
    (hp : ∀ asg ∈ p.assignments, asg.startTime + asg.activity.duration ≤ 48) :
    ∀ asg ∈ (runBatch p text).assignments,
      asg.startTime + asg.activity.duration ≤ 48 := by
  unfold runBatch assignActivities
  by_cases hemp : (unassignedActivities p).isEmpty
  · simpa [hemp] using hp
  · have := runParseAndApply_bound p (unassignedActivities p) text hp
    simpa [hemp, runParseAndApply] using this

/-- C4 counterexample: the direct assign path is unchecked, so the state
reached by adding a duration-5 activity and assigning it to slot 47 is
reachable through the public operations yet contains an assignment with
startTime + duration = 52 > 48. -/
theorem day_bound_invariant_counterexample :
    Reachable (assignActivity (addActivity emptyPlanner "Study" 5).1
        (addActivity emptyPlanner "Study" 5).2 47) ∧
      ((assignActivity (addActivity emptyPlanner "Study" 5).1
          (addActivity emptyPlanner "Study" 5).2 47).assignments.any
        (fun asg => 48 < asg.startTime + asg.activity.duration)) = true :=
  ⟨Reachable.assign _ _ 47 (Reachable.add _ "Study" 5 Reachable.init),
    by decide⟩

/-- C4 amended: in every state reachable through the public operations in
which each direct assignActivity call satisfies startTime + duration ≤ 48,
every assignment fits within the 48-slot day (the batch path enforces the
bound itself). -/
theorem day_bound_invariant_constrained (p : DayPlanner)
    (h : ConstrainedReachable p) :
    ∀ asg ∈ p.assignments, asg.startTime + asg.activity.duration ≤ 48 := by
  induction h with
  | init => intro asg hmem; simp [emptyPlanner] at hmem
  | add p title dur hr ih => intro asg hmem; exact ih asg hmem
  | remove p a hr ih =>
    intro asg hmem
    exact ih asg (List.mem_of_mem_filter hmem)
  | unassign p a hr ih =>
    intro asg hmem
    exact ih asg (List.mem_of_mem_filter hmem)
  | assign p a t hr hb ih =>
    exact assignActivity_assignments_bound p a t ih hb
  | batch p text hr ih => exact runBatch_bound p text ih

/-- C4 amended witness: a Gym activity of duration 2 assigned to slot 10
through the constrained operations; its assignment fits in the day. -/
theorem day_bound_invariant_constrained_witness :
    ((⟨⟨1, "Gym", 2⟩, 10⟩ : Assignment).startTime
      + (⟨⟨1, "Gym", 2⟩, 10⟩ : Assignment).activity.duration ≤ 48) :=
  day_bound_invariant_constrained
    (assignActivity (addActivity (addActivity emptyPlanner "Rest" 1).1 "Gym" 2).1
      (addActivity (addActivity emptyPlanner "Rest" 1).1 "Gym" 2).2 10)
    (ConstrainedReachable.assign _ _ 10
      (ConstrainedReachable.add _ "Gym" 2
        (ConstrainedReachable.add _ "Rest" 1 ConstrainedReachable.init))
      (by decide))
    ⟨⟨1, "Gym", 2⟩, 10⟩ (by decide)

theorem findConflict_none_of (occ : Int → Option Activity) (n : Nat) :
    ∀ st : Int, (∀ k : Nat, k < n → occ (st + k) = none) →
      findConflict occ st n = none := by
  induction n with
  | zero => intro st _; rfl
  | succ k ih =>
    intro st h
    have h0 : occ st = none := by simpa using h 0 (Nat.succ_pos k)
    simp only [findConflict, h0]
    apply ih
    intro m hm
    have hme := h (m + 1) (by omega)
    rw [show st + 1 + (m : Int) = st + ((m + 1 : Nat) : Int) by push_cast; ring]
    exact hme

theorem processObjLike_success (s : LoopState) (T : String) (q : JNum)
    (a : Activity) (rest : List Activity)
    (htrim : trimEmpty T = false)
    (hpool : s.queues T = a :: rest)
    (hi : q.isInteger = true)
    (hr : ¬(q.intValue < 0 ∨ q.intValue > 47))
    (hend : ¬(q.intValue + a.duration > 48))
    (hconf : findConflict s.occupied q.intValue a.duration.toNat = none) :
    processObjLike s (Json.obj [("title", Json.str T),
        ("startTime", Json.num q)]) =
      ⟨fun t => if t == T then rest else s.queues t, s.issues,
        s.validated ++ [(a, q.intValue)],
        markRange s.occupied a q.intValue a.duration.toNat⟩ := by
  simp [processObjLike, jsGetField, lookupLast, htrim, hpool, hi, hr, hend,
    hconf]

/-- C5: with two unassigned same-titled activities created in order, a
batch naming that title twice binds the first-created activity to the
first proposal's slot and the second-created to the second proposal's,
by queue order alone (no hypothesis orders t1 against t2); the validated
list and the applied store pair them exactly in creation order. -/
theorem fifo_pooling (a1 a2 : Activity) (n : Nat) (t1 t2 : Int)
    (htitle : a2.title = a1.title)
    (hid : (a1.id == a2.id) = false)
    (htrim : trimEmpty a1.title = false)
    (h1a : 0 ≤ t1) (h1b : t1 ≤ 47) (h2a : 0 ≤ t2) (h2b : t2 ≤ 47)
    (h1c : t1 + a1.duration ≤ 48) (h2c : t2 + a2.duration ≤ 48)
    (hdisj : t1 + a1.duration ≤ t2 ∨ t2 + a2.duration ≤ t1) :
    (validateRaws ⟨[a1, a2], [], n⟩ (unassignedActivities ⟨[a1, a2], [], n⟩)
        [mkProposal a1.title t1, mkProposal a1.title t2]).issues = [] ∧
      (validateRaws ⟨[a1, a2], [], n⟩ (unassignedActivities ⟨[a1, a2], [], n⟩)
          [mkProposal a1.title t1, mkProposal a1.title t2]).validated
        = [(a1, t1), (a2, t2)] ∧
      applyAll ⟨[a1, a2], [], n⟩
          (validateRaws ⟨[a1, a2], [], n⟩
            (unassignedActivities ⟨[a1, a2], [], n⟩)
            [mkProposal a1.title t1, mkProposal a1.title t2]).validated
        = ⟨[a1, a2], [⟨a1, t1⟩, ⟨a2, t2⟩], n⟩ := by
  have hun : unassignedActivities ⟨[a1, a2], [], n⟩ = [a1, a2] := by
    simp [unassignedActivities, isAssigned]
  have hval1 : JNum.intValue ⟨t1, 0⟩ = t1 := by simp [JNum.intValue]
  have hval2 : JNum.intValue ⟨t2, 0⟩ = t2 := by simp [JNum.intValue]
  have hq0 : buildQueues [a1, a2] a1.title = a1 :: [a2] := by
    simp [buildQueues, htitle]
  have hconf1 : findConflict (seedOccupied ([] : List Assignment))
      (JNum.intValue ⟨t1, 0⟩) a1.duration.toNat = none := by
    apply findConflict_none_of
    intro k _
    rfl
  have e1 : processRaw ⟨buildQueues [a1, a2], [], [],
        seedOccupied ([] : List Assignment)⟩ (mkProposal a1.title t1)
      = ⟨fun t => if t == a1.title then [a2] else buildQueues [a1, a2] t,
          [], [] ++ [(a1, JNum.intValue ⟨t1, 0⟩)],
          markRange (seedOccupied ([] : List Assignment)) a1
            (JNum.intValue ⟨t1, 0⟩) a1.duration.toNat⟩ :=
    processObjLike_success _ a1.title ⟨t1, 0⟩ a1 [a2] htrim hq0 rfl
      (by rw [hval1]; omega) (by rw [hval1]; omega) hconf1
  have hq1 : (fun t => if t == a1.title then [a2] else buildQueues [a1, a2] t)
      a1.title = a2 :: [] := by simp
  have hconf2 : findConflict (markRange (seedOccupied ([] : List Assignment))
        a1 (JNum.intValue ⟨t1, 0⟩) a1.duration.toNat)
      (JNum.intValue ⟨t2, 0⟩) a2.duration.toNat = none := by
    apply findConflict_none_of
    intro k hk
    simp only [markRange, seedOccupied, List.foldl_nil]
    rw [if_neg]
    rw [hval1, hval2] at *
    omega
  have e2 : processRaw ⟨fun t => if t == a1.title then [a2]
        else buildQueues [a1, a2] t,
        [], [] ++ [(a1, JNum.intValue ⟨t1, 0⟩)],
        markRange (seedOccupied ([] : List Assignment)) a1
          (JNum.intValue ⟨t1, 0⟩) a1.duration.toNat⟩ (mkProposal a1.title t2)
      = ⟨fun t => if t == a1.title then []
            else if t == a1.title then [a2] else buildQueues [a1, a2] t,
          [], ([] ++ [(a1, JNum.intValue ⟨t1, 0⟩)])
            ++ [(a2, JNum.intValue ⟨t2, 0⟩)],
          markRange (markRange (seedOccupied ([] : List Assignment)) a1
              (JNum.intValue ⟨t1, 0⟩) a1.duration.toNat) a2
            (JNum.intValue ⟨t2, 0⟩) a2.duration.toNat⟩ :=
    processObjLike_success _ a1.title ⟨t2, 0⟩ a2 [] htrim hq1 rfl
      (by rw [hval2]; omega) (by rw [hval2]; omega) hconf2
  have hv : validateRaws ⟨[a1, a2], [], n⟩
        (unassignedActivities ⟨[a1, a2], [], n⟩)
        [mkProposal a1.title t1, mkProposal a1.title t2]
      = ⟨fun t => if t == a1.title then []
            else if t == a1.title then [a2] else buildQueues [a1, a2] t,
          [], ([] ++ [(a1, JNum.intValue ⟨t1, 0⟩)])
            ++ [(a2, JNum.intValue ⟨t2, 0⟩)],
          markRange (markRange (seedOccupied ([] : List Assignment)) a1
              (JNum.intValue ⟨t1, 0⟩) a1.duration.toNat) a2
            (JNum.intValue ⟨t2, 0⟩) a2.duration.toNat⟩ := by
    rw [hun]
    unfold validateRaws
    simp only [List.foldl_cons, List.foldl_nil]
    rw [e1, e2]
  refine ⟨by rw [hv], by rw [hv]; simp [hval1, hval2], ?_⟩
  rw [hv]
  simp only [hval1, hval2]
  simp [applyAll, assignActivity, unassignActivity, hid]

/-- C5 witness: the spec's own example — two Study activities of durations
2 and 3 created in order, proposals at slots 10 and 20. -/
theorem fifo_pooling_witness :
    (validateRaws ⟨[⟨0, "Study", 2⟩, ⟨1, "Study", 3⟩], [], 2⟩
        (unassignedActivities ⟨[⟨0, "Study", 2⟩, ⟨1, "Study", 3⟩], [], 2⟩)
        [mkProposal "Study" 10, mkProposal "Study" 20]).issues = [] ∧
      (validateRaws ⟨[⟨0, "Study", 2⟩, ⟨1, "Study", 3⟩], [], 2⟩
          (unassignedActivities ⟨[⟨0, "Study", 2⟩, ⟨1, "Study", 3⟩], [], 2⟩)
          [mkProposal "Study" 10, mkProposal "Study" 20]).validated
        = [(⟨0, "Study", 2⟩, 10), (⟨1, "Study", 3⟩, 20)] ∧
      applyAll ⟨[⟨0, "Study", 2⟩, ⟨1, "Study", 3⟩], [], 2⟩
          (validateRaws ⟨[⟨0, "Study", 2⟩, ⟨1, "Study", 3⟩], [], 2⟩
            (unassignedActivities ⟨[⟨0, "Study", 2⟩, ⟨1, "Study", 3⟩], [], 2⟩)
            [mkProposal "Study" 10, mkProposal "Study" 20]).validated
        = ⟨[⟨0, "Study", 2⟩, ⟨1, "Study", 3⟩],
            [⟨⟨0, "Study", 2⟩, 10⟩, ⟨⟨1, "Study", 3⟩, 20⟩], 2⟩ :=
  fifo_pooling ⟨0, "Study", 2⟩ ⟨1, "Study", 3⟩ 2 10 20 (by decide) (by decide)
    (by decide) (by decide) (by decide) (by decide) (by decide) (by decide)
    (by decide) (by decide)

theorem findFirst_eq_some_split (p : Char → Bool) :
    ∀ (cs : List Char) (i : Nat), findFirst p cs = some i →
      ∃ pre c post, cs = pre ++ c :: post ∧ pre.length = i ∧ p c = true ∧
        ∀ x ∈ pre, p x = false := by
  intro cs
  induction cs with
  | nil => intro i h; simp [findFirst] at h
  | cons c cs ih =>
    intro i h
    by_cases hp : p c = true
    · have h0 : i = 0 := by
        simp [findFirst, hp] at h
        omega
      exact ⟨[], c, cs, rfl, by simp [h0], hp, by simp⟩
    · have hp0 : p c = false := by simpa using hp
      have hstep : findFirst p (c :: cs) = (findFirst p cs).map (· + 1) := by
        simp [findFirst, hp0]
      rw [hstep] at h
      cases hf : findFirst p cs with
      | none => rw [hf] at h; simp at h
      | some j =>
        rw [hf] at h
        simp at h
        obtain ⟨pre, c2, post, hcs, hlen, hc2, hpre⟩ := ih j hf
        refine ⟨c :: pre, c2, post, by simp [hcs], ?_, hc2, ?_⟩
        · simp only [List.length_cons, hlen]
          omega
        · intro x hx
          rcases List.mem_cons.mp hx with rfl | hx2
          · exact hp0
          · exact hpre x hx2

theorem extractJson_some_split (s ex : String) (h : extractJson s = some ex) :
    ∃ pre post, s.data = pre ++ ex.data ++ post ∧
      (∀ c ∈ pre, c ≠ lbrace) ∧ (∀ c ∈ post, c ≠ rbrace) ∧
      ex.data.head? = some lbrace ∧ ex.data.getLast? = some rbrace := by
  unfold extractJson at h
  cases hf : findFirst (fun c => c == lbrace) s.data with
  | none => rw [hf] at h; simp at h
  | some i =>
    cases hg : findFirst (fun c => c == rbrace) s.data.reverse with
    | none => rw [hf, hg] at h; simp at h
    | some k =>
      rw [hf, hg] at h
      dsimp only at h
      by_cases hij : i < s.data.length - 1 - k
      case neg => rw [if_neg hij] at h; simp at h
      case pos =>
        rw [if_pos hij] at h
        have hex : ex.data
            = (s.data.drop i).take (s.data.length - 1 - k - i + 1) := by
          have h2 := congrArg String.data (Option.some.inj h)
          exact h2.symm
        obtain ⟨A, lb0, B, hcs, hA, hlb, hAno⟩ :=
          findFirst_eq_some_split _ _ _ hf
        obtain ⟨RA, rb0, RB, hrev, hRA, hrb, hRAno⟩ :=
          findFirst_eq_some_split _ _ _ hg
        have hlb2 : lb0 = lbrace := eq_of_beq hlb
        have hrb2 : rb0 = rbrace := eq_of_beq hrb
        have hcs2 : s.data = RB.reverse ++ rb0 :: RA.reverse := by
          have h3 := congrArg List.reverse hrev
          simpa using h3
        have hlen0 : s.data.length = RA.length + 1 + RB.length := by
          have h4 := congrArg List.length hrev
          simp only [List.length_reverse, List.length_append,
            List.length_cons] at h4
          omega
        have hlenRB : RB.reverse.length = s.data.length - 1 - k := by
          simp only [List.length_reverse]
          omega
        have hjlen : s.data.length - 1 - k < s.data.length := by
          omega
        have hdrop_i : s.data.drop i = lb0 :: B := by
          rw [hcs, ← hA]
          exact List.drop_left A (lb0 :: B)
        have hdrop_j1 : s.data.drop (s.data.length - 1 - k + 1)
            = RA.reverse := by
          have hlen1 : (RB.reverse ++ [rb0]).length
              = s.data.length - 1 - k + 1 := by
            simp only [List.length_append, List.length_reverse,
              List.length_singleton]
            omega
          calc s.data.drop (s.data.length - 1 - k + 1)
              = ((RB.reverse ++ [rb0]) ++ RA.reverse).drop
                  ((RB.reverse ++ [rb0]).length) := by
                rw [hlen1]
                congr 1
                rw [hcs2]
                simp
            _ = RA.reverse := List.drop_left _ _
        have hsplit : ex.data ++ RA.reverse = s.data.drop i := by
          rw [hex]
          have h7 : (s.data.drop i).drop (s.data.length - 1 - k - i + 1)
              = s.data.drop (s.data.length - 1 - k + 1) := by
            rw [List.drop_drop]
            congr 1
            omega
          rw [← h7.trans hdrop_j1]
          exact List.take_append_drop _ _
        have hA2 : A = s.data.take i := by
          rw [hcs, ← hA]
          exact (List.take_left A (lb0 :: B)).symm
        refine ⟨A, RA.reverse, ?_, ?_, ?_, ?_, ?_⟩
        · rw [List.append_assoc, hsplit, hA2]
          exact (List.take_append_drop i s.data).symm
        · intro c hc
          have h8 := hAno c hc
          simpa using h8
        · intro c hc
          have hc2 : c ∈ RA := by
            rw [← List.mem_reverse]
            exact hc
          have h9 := hRAno c hc2
          simpa using h9
        · rw [hex, hdrop_i, List.take_succ_cons]
          simp [hlb2]
        · have hcancel : ex.data = (RB.reverse ++ [rb0]).drop i := by
            have heq2 : ex.data ++ RA.reverse
                = (RB.reverse ++ [rb0]).drop i ++ RA.reverse := by
              rw [hsplit, hcs2]
              rw [show RB.reverse ++ rb0 :: RA.reverse
                  = (RB.reverse ++ [rb0]) ++ RA.reverse by simp]
              rw [List.drop_append_eq_append_drop]
              have h10 : i - (RB.reverse ++ [rb0]).length = 0 := by
                simp only [List.length_append, List.length_reverse,
                  List.length_singleton]
                omega
              rw [h10]
              simp
            exact List.append_cancel_right heq2
          rw [hcancel]
          have hile : i ≤ RB.reverse.length := by
            rw [hlenRB]; omega
          rw [List.drop_append_of_le_length hile, List.getLast?_concat, hrb2]

/-- C6 counterexample: the text consists of a well-formed payload block
(an object with an assignments array, shown by parsing the prefix on its
own) followed by stray braces. The greedy extraction takes the span from
the first opening brace to the LAST closing brace, which is not valid
JSON, so the call fails with a ParseError instead of extracting the first
well-formed block found in the text. -/
theorem first_block_extraction_counterexample :
    ("\x7b\"assignments\": []\x7d \x7b\x7d" : String)
        = "\x7b\"assignments\": []\x7d" ++ " \x7b\x7d" ∧
      jsonParse "\x7b\"assignments\": []\x7d"
        = some (Json.obj [("assignments", Json.arr [])]) ∧
      getAssignmentsField (Json.obj [("assignments", Json.arr [])])
        = some [] ∧
      parsePhase "\x7b\"assignments\": []\x7d \x7b\x7d"
        = Except.error (BatchError.parseError "JSON parse failed") :=
  ⟨rfl, rfl, rfl, rfl⟩

/-- C6 amended: the validator extracts the single span running from the
first opening brace that precedes the final closing brace through that
final closing brace (not the first well-formed block), parses exactly that
span, and on any failure — no such span, an unparseable span, or a parsed
value without an assignments array — the whole call fails with a
ParseError and the store is left unchanged, with no partial recovery. -/
theorem extraction_brace_span (text : String) :
    (extractJson text = none →
      parsePhase text
        = Except.error (BatchError.parseError "No JSON found in response")) ∧
      (∀ ex, extractJson text = some ex →
        ∃ pre post, text.data = pre ++ ex.data ++ post ∧
          (∀ c ∈ pre, c ≠ lbrace) ∧ (∀ c ∈ post, c ≠ rbrace) ∧
          ex.data.head? = some lbrace ∧ ex.data.getLast? = some rbrace) ∧
      (∀ ex, extractJson text = some ex → jsonParse ex = none →
        parsePhase text
          = Except.error (BatchError.parseError "JSON parse failed")) ∧
      (∀ p un e, parseAndApplyAssignments p un text = Except.error e →
        runParseAndApply p un text = p) := by
  refine ⟨?_, ?_, ?_, ?_⟩
  · intro h
    unfold parsePhase
    rw [h]
  · intro ex h
    exact extractJson_some_split text ex h
  · intro ex h hj
    unfold parsePhase
    rw [h]
    dsimp only
    rw [hj]
  · intro p un e h
    unfold runParseAndApply
    rw [h]

/-- C6 amended witness: the three failure shapes at concrete texts — no
braces at all, a valid two-character span inside surrounding text, and the
counterexample text whose greedy span fails to parse — plus the unchanged
store after an error. -/
theorem extraction_brace_span_witness :
    (extractJson "no braces at all" = none ∧
      parsePhase "no braces at all"
        = Except.error (BatchError.parseError "No JSON found in response")) ∧
      (extractJson "ab\x7b\x7dcd" = some "\x7b\x7d" ∧
        ∃ pre post, ("ab\x7b\x7dcd" : String).data
            = pre ++ ("\x7b\x7d" : String).data ++ post ∧
          (∀ c ∈ pre, c ≠ lbrace) ∧ (∀ c ∈ post, c ≠ rbrace) ∧
          ("\x7b\x7d" : String).data.head? = some lbrace ∧
          ("\x7b\x7d" : String).data.getLast? = some rbrace) ∧
      (jsonParse "\x7b\"assignments\": []\x7d \x7b\x7d" = none ∧
        parsePhase "\x7b\"assignments\": []\x7d \x7b\x7d"
          = Except.error (BatchError.parseError "JSON parse failed")) ∧
      runParseAndApply emptyPlanner [] "no braces at all" = emptyPlanner :=
  ⟨⟨rfl, (extraction_brace_span "no braces at all").1 rfl⟩,
    ⟨rfl, (extraction_brace_span "ab\x7b\x7dcd").2.1 "\x7b\x7d" rfl⟩,
    ⟨rfl, (extraction_brace_span "\x7b\"assignments\": []\x7d \x7b\x7d").2.2.1
      "\x7b\"assignments\": []\x7d \x7b\x7d" rfl rfl⟩,
    (extraction_brace_span "no braces at all").2.2.2 emptyPlanner []
      (BatchError.parseError "No JSON found in response") rfl⟩

theorem getD_set_self {α : Type} (l : List α) :
    ∀ (i : Nat) (v d : α), i < l.length → (l.set i v).getD i d = v := by
  induction l with
  | nil => intro i v d h; simp at h
  | cons a l ih =>
    intro i v d h
    cases i with
    | zero => rfl
    | succ i => exact ih i v d (by simpa using h)

theorem getD_set_ne {α : Type} (l : List α) :
    ∀ (i j : Nat) (v d : α), i ≠ j → (l.set i v).getD j d = l.getD j d := by
  induction l with
  | nil => intro i j v d _; rfl
  | cons a l ih =>
    intro i j v d h
    cases i with
    | zero =>
      cases j with
      | zero => exact absurd rfl h
      | succ j => rfl
    | succ i =>
      cases j with
      | zero => rfl
      | succ j => exact ih i j v d (by omega)

theorem getD_replicate_nilList :
    ∀ (n s : Nat), (List.replicate n ([] : List Activity)).getD s [] = [] := by
  intro n
  induction n with
  | zero => intro s; rfl
  | succ k ih =>
    intro s
    cases s with
    | zero => rfl
    | succ s => exact ih s

theorem placeSlots_spec (a : Activity) (n : Nat) :
    ∀ (sched : List (List Activity)) (slot : Int),
      sched.length = 48 → 0 ≤ slot →
      ∃ sched2, placeSlots a sched slot n = some sched2 ∧
        sched2.length = 48 ∧
        ∀ s : Nat, s < 48 →
          sched2.getD s [] = sched.getD s []
            ++ (if slot ≤ (s : Int) ∧ (s : Int) < slot + (n : Int)
                then [a] else []) := by
  induction n with
  | zero =>
    intro sched slot hlen _
    refine ⟨sched, rfl, hlen, fun s _ => ?_⟩
    rw [if_neg (by omega)]
    simp
  | succ k ih =>
    intro sched slot hlen hpos
    by_cases h48 : slot < 48
    · have hstep : placeSlots a sched slot (k + 1)
          = placeSlots a (sched.set slot.toNat
              (sched.getD slot.toNat [] ++ [a])) (slot + 1) k := by
        simp [placeSlots, h48, hpos]
      obtain ⟨sched2, h2, hlen2, hchar⟩ :=
        ih (sched.set slot.toNat (sched.getD slot.toNat [] ++ [a])) (slot + 1)
          (by simp [hlen]) (by omega)
      refine ⟨sched2, hstep.trans h2, hlen2, fun s hs => ?_⟩
      rw [hchar s hs]
      by_cases hss : (s : Int) = slot
      · have hsn : s = slot.toNat := by omega
        rw [hsn, getD_set_self _ _ _ _ (by rw [hlen]; omega)]
        rw [if_neg (by omega), if_pos (by constructor <;> omega)]
        simp
      · have hsn : s ≠ slot.toNat := by omega
        rw [getD_set_ne _ _ _ _ _ (fun hc => hsn hc.symm)]
        have hiff : (slot + 1 ≤ (s : Int) ∧ (s : Int) < slot + 1 + (k : Int))
            ↔ (slot ≤ (s : Int) ∧ (s : Int) < slot + ((k + 1 : Nat) : Int)) := by
          push_cast
          omega
        rw [if_congr hiff rfl rfl]
    · have hstep : placeSlots a sched slot (k + 1)
          = placeSlots a sched (slot + 1) k := by
        simp [placeSlots, h48]
      obtain ⟨sched2, h2, hlen2, hchar⟩ := ih sched (slot + 1) hlen (by omega)
      refine ⟨sched2, hstep.trans h2, hlen2, fun s hs => ?_⟩
      rw [hchar s hs]
      rw [if_neg (by omega), if_neg (by omega)]

theorem foldPlace_spec (l : List Assignment) :
    ∀ sched : List (List Activity), sched.length = 48 →
      (∀ asg ∈ l, 0 ≤ asg.startTime) →
      ∃ sched2,
        l.foldlM (fun sc asg => placeSlots asg.activity sc asg.startTime
          asg.activity.duration.toNat) sched = some sched2 ∧
        sched2.length = 48 ∧
        ∀ s : Nat, s < 48 →
          sched2.getD s [] = sched.getD s []
            ++ (l.filter (fun asg => decide (asg.startTime ≤ (s : Int))
                && decide ((s : Int) < asg.startTime
                  + asg.activity.duration))).map (fun asg => asg.activity) := by
  induction l with
  | nil =>
    intro sched hlen _
    exact ⟨sched, rfl, hlen, fun s _ => by simp⟩
  | cons asg rest ih =>
    intro sched hlen hpos
    obtain ⟨sched1, h1, hlen1, hchar1⟩ :=
      placeSlots_spec asg.activity asg.activity.duration.toNat sched
        asg.startTime hlen (hpos asg (List.mem_cons_self asg rest))
    obtain ⟨sched2, h2, hlen2, hchar2⟩ := ih sched1 hlen1
      (fun x hx => hpos x (List.mem_cons_of_mem asg hx))
    refine ⟨sched2, ?_, hlen2, fun s hs => ?_⟩
    · rw [List.foldlM_cons, h1]
      exact h2
    · rw [hchar2 s hs, hchar1 s hs, List.filter_cons]
      by_cases hc : asg.startTime ≤ (s : Int)
          ∧ (s : Int) < asg.startTime + asg.activity.duration
      · rw [if_pos (by omega), if_pos (by simp [hc.1, hc.2])]
        simp
      · rw [if_neg (by omega), if_neg (by simpa using hc)]
        simp

/-- C10 counterexample: a reachable state holding an assignment with a
negative startTime (created through the unchecked direct assign path)
makes getSchedule fail — the JavaScript code pushes onto a missing key and
throws — instead of returning the slot mapping. -/
theorem getSchedule_negative_start_counterexample :
    Reachable (assignActivity (addActivity emptyPlanner "Late" 1).1
        (addActivity emptyPlanner "Late" 1).2 (-1)) ∧
      getSchedule (assignActivity (addActivity emptyPlanner "Late" 1).1
        (addActivity emptyPlanner "Late" 1).2 (-1)) = none :=
  ⟨Reachable.assign _ _ (-1) (Reachable.add _ "Late" 1 Reachable.init), rfl⟩

/-- C10 amended: in every state whose assignments all have a nonnegative
startTime, getSchedule returns the mapping with keys exactly the 48 slots
0 through 47, each slot holding, in assignment order, exactly the
activities whose assignment covers that slot; slots of an assignment at or
beyond 48 are silently dropped (only coverage below 48 appears). When some
assignment has a negative startTime the call fails instead. -/
theorem getSchedule_keys_and_coverage (p : DayPlanner)
    (hpos : ∀ asg ∈ p.assignments, 0 ≤ asg.startTime) :
    ∃ sched, getSchedule p = some sched ∧ sched.length = 48 ∧
      ∀ s : Nat, s < 48 →
        sched.getD s [] = (p.assignments.filter (fun asg =>
            decide (asg.startTime ≤ (s : Int)) && decide ((s : Int)
              < asg.startTime + asg.activity.duration))).map
          (fun asg => asg.activity) := by
  obtain ⟨sched, h1, h2, h3⟩ := foldPlace_spec p.assignments
    (List.replicate 48 []) (by simp) hpos
  refine ⟨sched, h1, h2, fun s hs => ?_⟩
  rw [h3 s hs, getD_replicate_nilList]
  simp

/-- C10 amended witness: one Gym assignment of duration 2 at slot 10. -/
theorem getSchedule_keys_and_coverage_witness :
    (∀ asg ∈ (⟨[⟨0, "Gym", 2⟩], [⟨⟨0, "Gym", 2⟩, 10⟩], 1⟩ :
        DayPlanner).assignments, 0 ≤ asg.startTime) ∧
      ∃ sched, getSchedule ⟨[⟨0, "Gym", 2⟩], [⟨⟨0, "Gym", 2⟩, 10⟩], 1⟩
          = some sched ∧ sched.length = 48 ∧
        ∀ s : Nat, s < 48 →
          sched.getD s [] = (((⟨[⟨0, "Gym", 2⟩], [⟨⟨0, "Gym", 2⟩, 10⟩], 1⟩ :
              DayPlanner).assignments).filter (fun asg =>
              decide (asg.startTime ≤ (s : Int)) && decide ((s : Int)
                < asg.startTime + asg.activity.duration))).map
            (fun asg => asg.activity) :=
  ⟨by decide, getSchedule_keys_and_coverage _ (by decide)⟩

end DayPlannerModel
